import Mathlib

/-!
A shallow embedding of the content-aggregation and page-assembly pipeline of
the `sitegen` static site generator (`src/sitegen/build.py`), together with
proofs about its behaviour.

Modelling conventions:
* Python `pathlib.Path` values are modelled as lists of path segments
  (`FPath`); `Path(s)` splits on `/` and drops empty segments, and
  `joinpath` is list append.
* Python exceptions are modelled with `Except PyError`; a Python function
  that can fall off the end without returning yields `Option` in its result.
* The external collaborators (the Jinja template engine and the pandoc
  document converter), which the code treats as opaque, are modelled as an
  abstract `Collaborators` record of rendering functions.
* The filesystem is modelled as an association list of files (path to
  contents, first entry wins) plus a list of created directories; writing
  prepends, `shutil.copytree(src, dst, dirs_exist_ok=True)` prepends the
  rebased source subtree (so copied files shadow pre-existing conflicting
  files, i.e. overwrite-on-conflict with merge).
* Python `set` objects are modelled as lists without duplicates (insertion
  keeps the first occurrence); membership uses `==`, which for the
  `NamedTuple`-derived records is full structural equality.  Iteration
  order of a Python set is implementation defined; the model fixes
  insertion order, and no theorem below depends on that choice.
-/

namespace Sitegen

/-- Python exception values raised by the embedded code. -/
inductive PyError where
  | valueError (msg : String)
  | typeError (msg : String)
  | fileNotFound (msg : String)
deriving DecidableEq, Repr

/-- A filesystem path, as a list of path segments. -/
abbrev FPath := List String

/-- Model of `pathlib.Path(s)`: split a string path into segments at `/`, dropping
empty segments (pathlib normalises doubled separators; relative paths
only). -/
def pyPath (s : String) : FPath :=
  ((s.data.foldr (fun c acc =>
      match acc with
      | [] => if c = '/' then [[]] else [[c]]
      | seg :: rest => if c = '/' then [] :: acc else (c :: seg) :: rest)
    [[]]).map (fun cs => String.mk cs)).filter (fun seg => seg ≠ "")

/-- The stem of a file name: everything before the final dot
(`pathlib.PurePath.stem` for simple one-suffix names). -/
def stemStr (s : String) : String :=
  let cs := s.data
  if '.' ∈ cs then ⟨cs.take (cs.length - 1 - cs.reverse.indexOf '.')⟩ else s

/-- Model of `Path.stem` of the last segment of a path. -/
def FPath.stem (p : FPath) : String := stemStr (p.getLastD "")

/-- A calendar date as held by `datetime.date`. -/
structure Date where
  year : Nat
  month : Nat
  day : Nat
deriving DecidableEq, Repr

/-- Model of `datetime.date` comparison: lexicographic on (year, month, day). -/
def Date.le (a b : Date) : Bool :=
  if a.year ≠ b.year then decide (a.year < b.year)
  else if a.month ≠ b.month then decide (a.month < b.month)
  else decide (a.day ≤ b.day)

/-- Gregorian leap year rule, as implemented by `datetime`. -/
def isLeapYear (y : Nat) : Bool :=
  y % 4 == 0 && (y % 100 != 0 || y % 400 == 0)

/-- Days in a month, as validated by `datetime.date`. -/
def daysInMonth (y m : Nat) : Nat :=
  if m = 2 then (if isLeapYear y then 29 else 28)
  else if m = 4 ∨ m = 6 ∨ m = 9 ∨ m = 11 then 30
  else 31

/-- Model of `datetime.date(day=…, month=…, year=…)`: validates its arguments and
raises `ValueError` on an invalid calendar date. -/
def mkDate (day month year : Nat) : Except PyError Date :=
  if 1 ≤ year ∧ year ≤ 9999 ∧ 1 ≤ month ∧ month ≤ 12 ∧
      1 ≤ day ∧ day ≤ daysInMonth year month then
    .ok ⟨year, month, day⟩
  else
    .error (.valueError "day, month or year is out of range")

/-- Model of `PostData` (build.py line 114): the parsed metadata record of a post. -/
structure PostData where
  path : FPath
  directory : FPath
  format : String
  static : Option FPath
  title : String
  authors : List String
  date : Date
  description : String
  thumbnail : FPath
  project : Option (List String)
  tags : List String
deriving DecidableEq, Repr

/-- The JSON descriptor read from a `post.json` file, with the fields
`parse_post` accesses; `null` is `none`. -/
structure PostJson where
  file_path : String
  post_dir : String
  format : String
  static_dir : Option String
  title : String
  authors : List String
  day : Nat
  month : Nat
  year : Nat
  description : String
  thumbnail : String
  projects : Option (List String)
  tags : List String
deriving DecidableEq, Repr

/-- Model of `parse_post` (build.py line 128): builds a `PostData` from a descriptor.
`static_dir` is checked against `None` explicitly; the `datetime.date`
constructor is the only argument expression that can raise. -/
def parse_post (j : PostJson) : Except PyError PostData := do
  let date ← mkDate j.day j.month j.year
  .ok { path := pyPath j.file_path
        directory := pyPath j.post_dir
        format := j.format
        static := j.static_dir.map pyPath
        title := j.title
        authors := j.authors
        date := date
        description := j.description
        thumbnail := pyPath j.thumbnail
        project := j.projects
        tags := j.tags }

/-- Model of `collect_posts` (build.py line 154): `found` is the list of descriptors
located by the `*/post.json` glob; an empty glob result returns `[]`
immediately, otherwise every descriptor is parsed. -/
def collect_posts (found : List PostJson) : Except PyError (List PostData) :=
  if found.length = 0 then .ok []
  else found.mapM parse_post

/-- Model of `render_authors_string` (build.py line 191).  The source's three
branches are: length 0 raises `ValueError`; length 1 returns the bare
name; the third branch is guarded by `len(author_list) < 1`, which can
never hold there, so for two or more authors the Python function falls
off the end and returns `None` — modelled as `Except.ok none`. -/
def render_authors_string (author_list : List String) : Except PyError (Option String) :=
  if author_list.length = 0 then
    .error (.valueError "No authors provided")
  else if author_list.length = 1 then
    .ok (some (author_list.headD ""))
  else if author_list.length < 1 then
    .ok (some (String.intercalate " "
      (author_list.dropLast.map (fun name => name ++ ", "))
      ++ "and " ++ author_list.getLastD ""))
  else
    .ok none

/-- English month name, for `strftime("%B")`. -/
def monthName : Nat → String
  | 1 => "January"
  | 2 => "February"
  | 3 => "March"
  | 4 => "April"
  | 5 => "May"
  | 6 => "June"
  | 7 => "July"
  | 8 => "August"
  | 9 => "September"
  | 10 => "October"
  | 11 => "November"
  | 12 => "December"
  | _ => ""

/-- Model of `render_date_string` (build.py line 204): `strftime("%B %-d, %Y")`,
i.e. month name, unpadded day, comma, year. -/
def render_date_string (d : Date) : String :=
  monthName d.month ++ " " ++ toString d.day ++ ", " ++ toString d.year

/-- Model of `PostBuildData` (build.py line 208): the record of a written post page.
The Python class overrides `__hash__` to hash only `data.title`, but does
not override the `NamedTuple` `__eq__`, which remains full structural
equality — the derived `DecidableEq` here is exactly that `__eq__`. -/
structure PostBuildData where
  path : FPath
  directory : FPath
  data : PostData
deriving DecidableEq, Repr

/-- Adding an element to a Python `set`, modelled as a duplicate-free list:
membership is decided by `__eq__` (full structural equality for these
records); an element already present is not added again. -/
def pySetAdd {α : Type} [DecidableEq α] (s : List α) (x : α) : List α :=
  if x ∈ s then s else s ++ [x]

/-- Does `root` occur as the leading segments of `p`? -/
def isUnder (root p : FPath) : Bool := p.take root.length == root

/-- The filesystem: an association list from path to file contents (the
first entry for a path is its current contents) and the directories that
have been created. -/
structure FS where
  files : List (FPath × String)
  dirs : List FPath
deriving DecidableEq, Repr

/-- Look a path up in a file table; the first entry wins. -/
def lookupF (files : List (FPath × String)) (p : FPath) : Option String :=
  (files.find? (fun e => e.1 == p)).map (fun e => e.2)

/-- Contents of the file at `p`, if any. -/
def FS.lookup (fs : FS) (p : FPath) : Option String := lookupF fs.files p

/-- Writing a file: the new entry shadows any previous entry for `p`. -/
def FS.write (fs : FS) (p : FPath) (content : String) : FS :=
  { fs with files := (p, content) :: fs.files }

/-- Model of `os.mkdir` / `Path.mkdir`: record the directory as created. -/
def FS.mkdir (fs : FS) (p : FPath) : FS :=
  { fs with dirs := p :: fs.dirs }

/-- Model of `Path.exists` for a directory path. -/
def FS.dirExists (fs : FS) (p : FPath) : Bool := fs.dirs.contains p

/-- The file-table effect of `shutil.copytree(src, dst, dirs_exist_ok=True)`:
every file under `src` reappears rebased under `dst`, shadowing (i.e.
overwriting) any previous file at the same destination path; files outside
`dst` are untouched and files under `dst` not hit by a copied file
survive (merge). -/
def copyFiles (src dst : FPath) (files : List (FPath × String)) :
    List (FPath × String) :=
  (files.filterMap (fun e =>
    if isUnder src e.1 then some (dst ++ e.1.drop src.length, e.2) else none))
  ++ files

/-- Model of `shutil.copytree(src, dst, dirs_exist_ok=True)` on the modelled
filesystem: rebase the files and directories of the `src` subtree under
`dst` (creating `dst` itself). -/
def FS.copytree (fs : FS) (src dst : FPath) : FS :=
  { files := copyFiles src dst fs.files
    dirs := dst :: (fs.dirs.filterMap (fun d =>
      if isUnder src d then some (dst ++ d.drop src.length) else none))
      ++ fs.dirs }

/-- The external collaborators of the pipeline: the pandoc round trip
(`pandoc.write(pandoc.read(text, format=fmt), format='html')`) and the
Jinja templates, each modelled as an opaque rendering function.  Template
render calls that omit a binding (e.g. `navbar.render()` with no `depth`)
pass `none`. -/
structure Collaborators where
  convert : String → String → String
  header : String → Option String → String
  navbar : Option String → String
  post_temp : String → String → String → Option String → String → String → String
  post_block : String → FPath → FPath → String → Option String → String → String → String
  blog : String → String → String → String → String
  tag : String → String → String
  project_page : String → String → String → String → String → String

/-- Model of `PostHTML` (build.py line 170): a post's metadata together with its
pandoc-converted HTML body. -/
structure PostHTML where
  post_data : PostData
  post_src : String
deriving DecidableEq, Repr

/-- Model of `build_post_html` (build.py line 175): read the post's source file and
convert it to HTML.  A missing source file raises `FileNotFoundError`. -/
def build_post_html (C : Collaborators) (post_data : PostData)
    (post_src_dir : FPath) (fs : FS) : Except PyError PostHTML :=
  let post_src_path := post_src_dir ++ post_data.directory ++ post_data.path
  match fs.lookup post_src_path with
  | none => .error (.fileNotFound "post source file not found")
  | some post_text => .ok ⟨post_data, C.convert post_text post_data.format⟩

/-- Model of `build_post_page` (build.py line 217): compose the post page from the
header, navbar and post template (link depth `"../../"`), create the
post's output directory and write `<stem>.html` into it. -/
def build_post_page (C : Collaborators) (Post : PostHTML)
    (site_build_dir post_build_dir : FPath) (fs : FS) :
    Except PyError (PostBuildData × FS) := do
  let header_text := C.header (Post.post_data.title ++ " - Alia Lescoulie") (some "../../")
  let author ← render_authors_string Post.post_data.authors
  let post_text := C.post_temp header_text (C.navbar (some "../../"))
    Post.post_data.title author (render_date_string Post.post_data.date)
    Post.post_src
  let post_dir := site_build_dir ++ post_build_dir ++ Post.post_data.directory
  let post_path := post_dir ++ [FPath.stem Post.post_data.path ++ ".html"]
  let fs := (fs.mkdir post_dir).write post_path post_text
  .ok (⟨post_path, post_dir, Post.post_data⟩, fs)

/-- Model of `copy_post_files` (build.py line 271): a no-op when the post has no
static assets directory; otherwise create
`site_build_dir/post_build_dir/<directory>/static` if absent and
copy the asset tree into it (`dirs_exist_ok=True`). -/
def copy_post_files (post : PostBuildData)
    (site_build_dir post_src_dir post_build_dir : FPath) (fs : FS) : FS :=
  match post.data.static with
  | none => fs
  | some static =>
    let new_static_dir := site_build_dir ++ post_build_dir ++ post.data.directory ++ ["static"]
    let fs1 := if fs.dirExists new_static_dir then fs else fs.mkdir new_static_dir
    fs1.copytree (post_src_dir ++ post.data.directory ++ static) new_static_dir

/-- Model of `render_tags` (build.py line 298): render one tag link per tag, link
resolved against `link_depth` directory levels, joined by `", "`.
(`Path('.')` contributes no path segments when joined.) -/
def render_tags (C : Collaborators) (tags : List String) (link_depth : Nat) : String :=
  let root_dir : FPath := if link_depth = 0 then [] else List.replicate link_depth ".."
  String.intercalate ", " (tags.map (fun tag =>
    C.tag (String.intercalate "/" (root_dir ++ [tag ++ ".html"])) tag))

/-- Model of `date_sort` (build.py line 321): the sort key. -/
def date_sort (x : PostBuildData) : Date := x.data.date

/-- Python `sorted(xs, key=key, reverse=reverse)` restricted to `Date`
keys: a stable sort; with `reverse = true` the comparison is flipped but
ties still keep their original relative order, exactly as `mergeSort`
keeps the left element when the comparison holds. -/
def pySorted {α : Type} (key : α → Date) (reverse : Bool) (xs : List α) : List α :=
  xs.mergeSort (fun a b =>
    if reverse then Date.le (key b) (key a) else Date.le (key a) (key b))

/-- Model of `build_post_blocks` (build.py line 324): sort the posts
(`reverse=reverse_cron`, default `True`), then render one block fragment
per post in sorted order.  `render_authors_string` is the only argument
expression that can raise. -/
def build_post_blocks (C : Collaborators) (posts : List PostBuildData)
    (post_build_dir : FPath) (link_depth : Nat) (reverse_cron : Bool) :
    Except PyError (List String) := do
  let sorted_posts := pySorted date_sort reverse_cron posts
  let root_dir : FPath := if link_depth = 0 then [] else List.replicate link_depth ".."
  sorted_posts.mapM (fun post => do
    let author ← render_authors_string post.data.authors
    Except.ok (C.post_block
      post.data.title
      (root_dir ++ post_build_dir ++ post.data.directory ++ post.data.thumbnail)
      (root_dir ++ post_build_dir ++ post.data.directory ++ [FPath.stem post.data.path ++ ".html"])
      (render_date_string post.data.date)
      author
      post.data.description
      (render_tags C post.data.tags link_depth)))

/-- Model of `build_blog_page` (build.py line 378): build the blocks with the
default sort (descending by date, link depth 0), render the listing page
(the header title is the hard-coded string `"Blog"`; the `title` argument
is passed to the page body) and write it at
`site_build_dir/blog_page_path`. -/
def build_blog_page (C : Collaborators) (posts : List PostBuildData)
    (site_build_dir post_build_dir blog_page_path : FPath) (title : String)
    (fs : FS) : Except PyError FS := do
  let post_blocks ← build_post_blocks C posts post_build_dir 0 true
  let blog_page_text := C.blog (C.header "Blog" none) (C.navbar none) title
    (String.intercalate "\n" post_blocks)
  .ok (fs.write (site_build_dir ++ blog_page_path) blog_page_text)

/-- The per-tag post list accumulated by `build_tags_pages` (build.py
lines 430-432): scan the posts in order and, for each occurrence of `tag`
among a post's tags, append that post to the tag's list. -/
def tag_posts (tag : String) (posts : List PostBuildData) : List PostBuildData :=
  posts.foldl (fun acc post =>
    post.data.tags.foldl (fun acc2 t =>
      if t = tag then acc2 ++ [post] else acc2) acc) []

/-- The distinct tags found across all posts (build.py lines 418-423:
all tags are accumulated into a list and collapsed into a set). -/
def distinct_tags (posts : List PostBuildData) : List String :=
  (posts.foldl (fun acc post => acc ++ post.data.tags) []).dedup

/-- One tag page as planned by `build_tags_pages`: its tag, the `title`
argument passed to `build_blog_page`, the output file name, and the posts
carrying the tag. -/
structure TagPage where
  tag : String
  title : String
  path : FPath
  posts : List PostBuildData
deriving DecidableEq, Repr

/-- The pages `build_tags_pages` (build.py line 413) builds: one call to
`build_blog_page` per distinct tag, with title `"<tag> Blog Posts"` and
output file `<tag>.html`. -/
def tag_pages_plan (posts : List PostBuildData) : List TagPage :=
  (distinct_tags posts).map (fun tag =>
    ⟨tag, tag ++ " Blog Posts", [tag ++ ".html"], tag_posts tag posts⟩)

/-- Model of `build_tags_pages` (build.py line 413): run `build_blog_page` once per
planned tag page. -/
def build_tags_pages (C : Collaborators) (posts : List PostBuildData)
    (site_build_dir post_build_dir : FPath) (fs : FS) : Except PyError FS :=
  (tag_pages_plan posts).foldlM (fun fs page =>
    build_blog_page C page.posts site_build_dir post_build_dir page.path
      page.title fs) fs

/-- Model of `build_blog` (build.py line 444): collect the descriptors, return `[]`
immediately when none were found, otherwise convert every post, write
every post page, stage every post's assets, and build the blog listing
page and the tag pages. -/
def build_blog (C : Collaborators) (found : List PostJson)
    (post_src_dir site_build_dir post_build_dir : FPath) (fs : FS) :
    Except PyError (List PostBuildData × FS) := do
  let posts ← collect_posts found
  if posts.length = 0 then
    .ok ([], fs)
  else do
    let posts ← posts.mapM (fun post => build_post_html C post post_src_dir fs)
    let (posts, fs) ← posts.foldlM
      (fun (acc : List PostBuildData × FS) post => do
        let (pbd, fs) ← build_post_page C post site_build_dir post_build_dir acc.2
        Except.ok (acc.1 ++ [pbd], fs)) ([], fs)
    let fs := posts.foldl (fun fs post =>
      copy_post_files post site_build_dir post_src_dir post_build_dir fs) fs
    let fs ← build_blog_page C posts site_build_dir post_build_dir
      (pyPath "blog.html") "Blog" fs
    let fs ← build_tags_pages C posts site_build_dir post_build_dir fs
    .ok (posts, fs)

/-- Model of `ProjectData` (build.py line 504): the parsed metadata record of a
project.  The `static` field is declared as a plain `Path` in the source,
but `copy_project_files` tests it against `None`, so it is modelled as
optional. -/
structure ProjectData where
  path : FPath
  directory : FPath
  format : String
  static : Option FPath
  thumbnail : FPath
  name : String
  date : Date
  description : String
deriving DecidableEq, Repr

/-- The JSON descriptor read from a `proj.json` file. -/
structure ProjJson where
  file_path : String
  proj_dir : String
  format : String
  static_dir : Option String
  thumbnail : String
  project : String
  day : Nat
  month : Nat
  year : Nat
  description : String
deriving DecidableEq, Repr

/-- Model of `parse_proj` (build.py line 515): builds a `ProjectData` from a
descriptor.  Unlike `parse_post` there is no `None` check on
`static_dir`: the source evaluates `Path(proj_json["static_dir"])`, and
`Path(None)` raises `TypeError`; the constructor arguments are evaluated
left to right, so this happens before the `datetime.date` call. -/
def parse_proj (j : ProjJson) : Except PyError ProjectData := do
  let static ← match j.static_dir with
    | none => Except.error (PyError.typeError
        "argument should be a str or an os.PathLike object, not NoneType")
    | some s => Except.ok (pyPath s)
  let date ← mkDate j.day j.month j.year
  .ok { path := pyPath j.file_path
        directory := pyPath j.proj_dir
        format := j.format
        static := some static
        thumbnail := pyPath j.thumbnail
        name := j.project
        date := date
        description := j.description }

/-- Model of `ProjectHTML` (build.py line 554). -/
structure ProjectHTML where
  data : ProjectData
  proj_src : String
deriving DecidableEq, Repr

/-- The set of posts associated with a project (build.py lines 568-571):
scan the built posts in order and add to a Python set every post whose
`projects` field is present and contains the project's name.  Membership
in the set is decided by `__eq__`, i.e. full structural equality. -/
def proj_posts (project : ProjectData) (posts : List PostBuildData) :
    List PostBuildData :=
  posts.foldl (fun acc post =>
    match post.data.project with
    | none => acc
    | some projs => if project.name ∈ projs then pySetAdd acc post else acc) []

/-- The page title passed to the header template by
`build_project_page_html` (build.py line 604): the source writes
`f"project.name - Alia Lescoulie"` — an f-string with no replacement
field — so the title is this literal, independent of the project. -/
def project_page_header_title (project : ProjectData) : String :=
  "project.name - Alia Lescoulie"

/-- Model of `build_project_page_html` (build.py line 559): collect the project's
associated posts, read and convert the project's source document, build
the post blocks ascending by date at link depth 2, and render the project
page. -/
def build_project_page_html (C : Collaborators) (project : ProjectData)
    (posts : List PostBuildData)
    (projects_src_dir post_build_dir : FPath) (fs : FS) :
    Except PyError ProjectHTML := do
  let posts_of_proj := proj_posts project posts
  let proj_src_path := projects_src_dir ++ project.directory ++ project.path
  let proj_text ← match fs.lookup proj_src_path with
    | none => Except.error (PyError.fileNotFound "project source file not found")
    | some t => Except.ok t
  let proj_html := C.convert proj_text project.format
  let proj_post_blocks ← build_post_blocks C posts_of_proj post_build_dir 2 false
  let page := C.project_page
    (C.header (project_page_header_title project) (some "../../"))
    (C.navbar (some "../../"))
    project.name
    proj_html
    (String.intercalate "\n" proj_post_blocks)
  .ok ⟨project, page⟩

/-- Model of `ProjectBuildData` (build.py line 616). -/
structure ProjectBuildData where
  path : FPath
  directory : FPath
  data : ProjectData
deriving DecidableEq, Repr

/-- Model of `write_project` (build.py line 622): create the project's output
directory and write the composed page. -/
def write_project (project : ProjectHTML)
    (site_build_dir projects_build_dir : FPath) (fs : FS) :
    ProjectBuildData × FS :=
  let proj_dir := site_build_dir ++ projects_build_dir ++ project.data.directory
  let proj_path := proj_dir ++ [FPath.stem project.data.path ++ ".html"]
  (⟨proj_path, proj_dir, project.data⟩,
    (fs.mkdir proj_dir).write proj_path project.proj_src)

/-- Model of `copy_project_files` (build.py line 647): a no-op when the project's
static field is `None`; otherwise create
`site_build_dir/projects_build_dir/<directory>/static` if absent and copy
the asset tree into it (`dirs_exist_ok=True`). -/
def copy_project_files (project : ProjectBuildData)
    (site_build_dir projects_src_dir projects_build_dir : FPath) (fs : FS) : FS :=
  match project.data.static with
  | none => fs
  | some static =>
    let new_static_dir := site_build_dir ++ projects_build_dir
      ++ project.data.directory ++ ["static"]
    let fs1 := if fs.dirExists new_static_dir then fs else fs.mkdir new_static_dir
    fs1.copytree (projects_src_dir ++ project.data.directory ++ static) new_static_dir

/-! ### Sample data used by concrete evaluations -/

/-- A sample parsed post record. -/
def mkPostData (dir title : String) (date : Date)
    (project : Option (List String)) (tags : List String) : PostData :=
  { path := ["post.md"], directory := [dir], format := "markdown"
    static := none, title := title, authors := ["Alia"], date := date
    description := "summary", thumbnail := ["thumb.png"]
    project := project, tags := tags }

/-- A sample built-post record. -/
def mkPost (dir title : String) (date : Date)
    (project : Option (List String)) (tags : List String) : PostBuildData :=
  { path := ["site_out", "posts", dir, "post.html"]
    directory := ["site_out", "posts", dir]
    data := mkPostData dir title date project tags }

/-- Two built posts sharing a title but differing in their directory. -/
def postDupA : PostBuildData := mkPost "a" "Duplicate" ⟨2024, 1, 1⟩ (some ["proj1"]) []

/-- Two built posts sharing a title but differing in their directory. -/
def postDupB : PostBuildData := mkPost "b" "Duplicate" ⟨2024, 1, 1⟩ (some ["proj1"]) []

/-- A sample project whose identifier is `"proj1"`. -/
def projOne : ProjectData :=
  { path := ["index.md"], directory := ["alpha"], format := "markdown"
    static := some ["static"], thumbnail := ["t.png"], name := "proj1"
    date := ⟨2024, 1, 1⟩, description := "proj" }

/-- Concrete collaborators that echo distinguished arguments back, so a
composed page exposes what the pipeline passed to the templates: the
header template renders exactly its `title` binding, and the project page
template renders exactly its `header` binding. -/
def echoCollab : Collaborators :=
  { convert := fun text _fmt => text
    header := fun title _depth => title
    navbar := fun _ => ""
    post_temp := fun h _n _t _a _d _html => h
    post_block := fun title _img _link _date _author _summary _tags => title
    blog := fun _h _n _t posts => posts
    tag := fun _link tag => tag
    project_page := fun h _n _name _txt _posts => h }

/-- A sample project named `"Alpha"`. -/
def projAlphaNamed : ProjectData :=
  { path := ["index.md"], directory := ["alpha"], format := "markdown"
    static := some ["static"], thumbnail := ["t.png"], name := "Alpha"
    date := ⟨2024, 1, 1⟩, description := "proj" }

/-- A sample project named `"Beta"`. -/
def projBetaNamed : ProjectData :=
  { projAlphaNamed with name := "Beta", directory := ["beta"] }

/-- A filesystem holding the source document of `projAlphaNamed`. -/
def fsAlpha : FS := ⟨[(["projects", "alpha", "index.md"], "alpha text")], []⟩

/-! ### Helper lemmas -/

theorem mem_pySetAdd {α : Type} [DecidableEq α] {s : List α} {x a : α} :
    a ∈ pySetAdd s x ↔ a ∈ s ∨ a = x := by
  unfold pySetAdd
  by_cases h : x ∈ s
  · simp only [if_pos h]
    exact ⟨Or.inl, fun h1 => h1.elim id (fun e => e ▸ h)⟩
  · simp [if_neg h, List.mem_append]

theorem nodup_pySetAdd {α : Type} [DecidableEq α] {s : List α} (x : α)
    (hs : s.Nodup) : (pySetAdd s x).Nodup := by
  unfold pySetAdd
  by_cases h : x ∈ s
  · simpa [if_pos h]
  · simp [if_neg h, List.nodup_append, hs, List.disjoint_singleton, h]

theorem mem_proj_posts_foldl (project : ProjectData)
    (posts : List PostBuildData) (acc : List PostBuildData) (p : PostBuildData) :
    p ∈ posts.foldl (fun acc post =>
      match post.data.project with
      | none => acc
      | some projs =>
        if project.name ∈ projs then pySetAdd acc post else acc) acc ↔
    p ∈ acc ∨ (p ∈ posts ∧ ∃ l, p.data.project = some l ∧ project.name ∈ l) := by
  induction posts generalizing acc with
  | nil => simp
  | cons head tail ih =>
    simp only [List.foldl_cons, ih, List.mem_cons]
    cases hp : head.data.project with
    | none =>
      have hno : ¬(p = head ∧ ∃ l, p.data.project = some l ∧ project.name ∈ l) := by
        rintro ⟨rfl, l, hl, _⟩
        rw [hp] at hl
        cases hl
      constructor
      · rintro (h | ⟨ht, hP⟩)
        · exact Or.inl h
        · exact Or.inr ⟨Or.inr ht, hP⟩
      · rintro (h | ⟨(rfl | ht), hP⟩)
        · exact Or.inl h
        · exact absurd ⟨rfl, hP⟩ hno
        · exact Or.inr ⟨ht, hP⟩
    | some projs =>
      by_cases hm : project.name ∈ projs
      · simp only [if_pos hm]
        constructor
        · rintro (h | ⟨ht, hP⟩)
          · rcases mem_pySetAdd.mp h with h1 | rfl
            · exact Or.inl h1
            · exact Or.inr ⟨Or.inl rfl, projs, hp, hm⟩
          · exact Or.inr ⟨Or.inr ht, hP⟩
        · rintro (h | ⟨(rfl | ht), hP⟩)
          · exact Or.inl (mem_pySetAdd.mpr (Or.inl h))
          · exact Or.inl (mem_pySetAdd.mpr (Or.inr rfl))
          · exact Or.inr ⟨ht, hP⟩
      · simp only [if_neg hm]
        have hno : ¬(p = head ∧ ∃ l, p.data.project = some l ∧ project.name ∈ l) := by
          rintro ⟨rfl, l, hl, hml⟩
          rw [hp] at hl
          cases hl
          exact hm hml
        constructor
        · rintro (h | ⟨ht, hP⟩)
          · exact Or.inl h
          · exact Or.inr ⟨Or.inr ht, hP⟩
        · rintro (h | ⟨(rfl | ht), hP⟩)
          · exact Or.inl h
          · exact absurd ⟨rfl, hP⟩ hno
          · exact Or.inr ⟨ht, hP⟩

theorem nodup_proj_posts_foldl (project : ProjectData)
    (posts : List PostBuildData) (acc : List PostBuildData) (hacc : acc.Nodup) :
    (posts.foldl (fun acc post =>
      match post.data.project with
      | none => acc
      | some projs =>
        if project.name ∈ projs then pySetAdd acc post else acc) acc).Nodup := by
  induction posts generalizing acc with
  | nil => simpa
  | cons head tail ih =>
    simp only [List.foldl_cons]
    apply ih
    cases head.data.project with
    | none => exact hacc
    | some projs =>
      by_cases hm : project.name ∈ projs
      · simpa [if_pos hm] using nodup_pySetAdd head hacc
      · simpa [if_neg hm] using hacc

theorem mem_tag_inner (tag : String) (post : PostBuildData)
    (tags : List String) (acc : List PostBuildData) (p : PostBuildData) :
    p ∈ tags.foldl (fun acc2 t => if t = tag then acc2 ++ [post] else acc2) acc ↔
    p ∈ acc ∨ (p = post ∧ tag ∈ tags) := by
  induction tags generalizing acc with
  | nil => simp
  | cons h t ih =>
    simp only [List.foldl_cons, ih, List.mem_cons]
    by_cases ht : h = tag
    · simp only [if_pos ht, List.mem_append, List.mem_singleton]
      constructor
      · rintro ((hac | rfl) | ⟨rfl, hm⟩)
        · exact Or.inl hac
        · exact Or.inr ⟨rfl, Or.inl ht.symm⟩
        · exact Or.inr ⟨rfl, Or.inr hm⟩
      · rintro (hac | ⟨rfl, -⟩)
        · exact Or.inl (Or.inl hac)
        · exact Or.inl (Or.inr rfl)
    · simp only [if_neg ht]
      constructor
      · rintro (hac | ⟨rfl, hm⟩)
        · exact Or.inl hac
        · exact Or.inr ⟨rfl, Or.inr hm⟩
      · rintro (hac | ⟨rfl, (he | hm)⟩)
        · exact Or.inl hac
        · exact absurd he.symm ht
        · exact Or.inr ⟨rfl, hm⟩

theorem mem_tag_posts (tag : String) (posts : List PostBuildData)
    (p : PostBuildData) :
    p ∈ tag_posts tag posts ↔ p ∈ posts ∧ tag ∈ p.data.tags := by
  suffices h : ∀ acc, p ∈ posts.foldl (fun acc post =>
      post.data.tags.foldl (fun acc2 t =>
        if t = tag then acc2 ++ [post] else acc2) acc) acc ↔
      p ∈ acc ∨ (p ∈ posts ∧ tag ∈ p.data.tags) by
    simpa [tag_posts] using h []
  induction posts with
  | nil => simp
  | cons head tail ih =>
    intro acc
    simp only [List.foldl_cons, ih, mem_tag_inner, List.mem_cons]
    constructor
    · rintro ((hac | ⟨rfl, hm⟩) | ⟨ht, hm⟩)
      · exact Or.inl hac
      · exact Or.inr ⟨Or.inl rfl, hm⟩
      · exact Or.inr ⟨Or.inr ht, hm⟩
    · rintro (hac | ⟨(rfl | ht), hm⟩)
      · exact Or.inl (Or.inl hac)
      · exact Or.inl (Or.inr ⟨rfl, hm⟩)
      · exact Or.inr ⟨ht, hm⟩

theorem mem_distinct_tags (posts : List PostBuildData) (t : String) :
    t ∈ distinct_tags posts ↔ ∃ p ∈ posts, t ∈ p.data.tags := by
  unfold distinct_tags
  rw [List.mem_dedup]
  suffices h : ∀ acc : List String, t ∈ posts.foldl
      (fun acc post => acc ++ post.data.tags) acc ↔
      t ∈ acc ∨ ∃ p ∈ posts, t ∈ p.data.tags by
    simpa using h []
  induction posts with
  | nil => simp
  | cons head tail ih =>
    intro acc
    simp only [List.foldl_cons, ih, List.mem_append, List.mem_cons]
    constructor
    · rintro ((hac | hm) | ⟨q, hq, hmq⟩)
      · exact Or.inl hac
      · exact Or.inr ⟨head, Or.inl rfl, hm⟩
      · exact Or.inr ⟨q, Or.inr hq, hmq⟩
    · rintro (hac | ⟨q, (rfl | hq), hmq⟩)
      · exact Or.inl (Or.inl hac)
      · exact Or.inl (Or.inr hmq)
      · exact Or.inr ⟨q, hq, hmq⟩

theorem Date.le_iff {a b : Date} : Date.le a b = true ↔
    a.year < b.year ∨ (a.year = b.year ∧
      (a.month < b.month ∨ (a.month = b.month ∧ a.day ≤ b.day))) := by
  unfold Date.le
  by_cases h1 : a.year = b.year <;> by_cases h2 : a.month = b.month <;>
    simp [h1, h2] <;> omega

theorem Date.le_total (a b : Date) : (Date.le a b || Date.le b a) = true := by
  rw [Bool.or_eq_true, Date.le_iff, Date.le_iff]
  omega

theorem Date.le_trans {a b c : Date} (h1 : Date.le a b = true)
    (h2 : Date.le b c = true) : Date.le a c = true := by
  rw [Date.le_iff] at h1 h2 ⊢
  omega

/-- The comparison `sorted(..., key=date_sort, reverse=True)` effectively
sorts by: `a` may stay before `b` when `b`'s date is at most `a`'s. -/
def descLe (a b : PostBuildData) : Bool := Date.le (date_sort b) (date_sort a)

/-- The comparison used by an ascending date sort. -/
def ascLe (a b : PostBuildData) : Bool := Date.le (date_sort a) (date_sort b)

theorem pySorted_true_eq (posts : List PostBuildData) :
    pySorted date_sort true posts = posts.mergeSort descLe := rfl

theorem pySorted_false_eq (posts : List PostBuildData) :
    pySorted date_sort false posts = posts.mergeSort ascLe := rfl

theorem descLe_trans : ∀ a b c : PostBuildData,
    descLe a b = true → descLe b c = true → descLe a c = true :=
  fun _ _ _ h1 h2 => Date.le_trans h2 h1

theorem descLe_total : ∀ a b : PostBuildData, (descLe a b || descLe b a) = true :=
  fun a b => Date.le_total (date_sort b) (date_sort a)

theorem ascLe_trans : ∀ a b c : PostBuildData,
    ascLe a b = true → ascLe b c = true → ascLe a c = true :=
  fun _ _ _ h1 h2 => Date.le_trans h1 h2

theorem ascLe_total : ∀ a b : PostBuildData, (ascLe a b || ascLe b a) = true :=
  fun a b => Date.le_total (date_sort a) (date_sort b)

theorem isUnder_append (src rel : FPath) : isUnder src (src ++ rel) = true := by
  simp [isUnder, List.take_left]

theorem eq_append_of_isUnder {src p : FPath} (h : isUnder src p = true) :
    p = src ++ p.drop src.length := by
  rw [isUnder, beq_iff_eq] at h
  conv_lhs => rw [← List.take_append_drop src.length p, h]

theorem find?_rebase (src dst rel : FPath) (files : List (FPath × String)) :
    (files.filterMap (fun e =>
      if isUnder src e.1 then some (dst ++ e.1.drop src.length, e.2)
      else none)).find? (fun e => e.1 == dst ++ rel) =
    (files.find? (fun e => e.1 == src ++ rel)).map
      (fun e => (dst ++ rel, e.2)) := by
  induction files with
  | nil => rfl
  | cons e fs ih =>
    by_cases hu : isUnder src e.1 = true
    · simp only [List.filterMap_cons, if_pos hu]
      by_cases he : e.1 = src ++ rel
      · have hkey : dst ++ e.1.drop src.length = dst ++ rel := by
          rw [he, List.drop_left]
        rw [List.find?_cons_of_pos _ (by simp [hkey]),
          List.find?_cons_of_pos _ (by simp [he])]
        simp
        exact List.append_cancel_left hkey
      · have hkey : ¬(dst ++ e.1.drop src.length = dst ++ rel) := by
          intro hc
          apply he
          have hdrop : e.1.drop src.length = rel := by
            exact List.append_cancel_left hc
          rw [eq_append_of_isUnder hu, hdrop]
        rw [List.find?_cons_of_neg _ (by simp [hkey]),
          List.find?_cons_of_neg _ (by simp [he])]
        exact ih
    · simp only [List.filterMap_cons, if_neg hu]
      have he : ¬(e.1 = src ++ rel) := fun hc => hu (hc ▸ isUnder_append src rel)
      rw [List.find?_cons_of_neg _ (by simp [he])]
      exact ih

theorem lookupF_copyFiles_dst (src dst rel : FPath)
    (files : List (FPath × String)) :
    lookupF (copyFiles src dst files) (dst ++ rel) =
      match lookupF files (src ++ rel) with
      | some c => some c
      | none => lookupF files (dst ++ rel) := by
  unfold lookupF copyFiles
  rw [List.find?_append, find?_rebase]
  cases h : files.find? (fun e => e.1 == src ++ rel) <;> simp [h]

theorem lookupF_copyFiles_outside (src dst p : FPath)
    (files : List (FPath × String)) (h : isUnder dst p = false) :
    lookupF (copyFiles src dst files) p = lookupF files p := by
  unfold lookupF copyFiles
  rw [List.find?_append]
  have hnone : (files.filterMap (fun e =>
      if isUnder src e.1 then some (dst ++ e.1.drop src.length, e.2)
      else none)).find? (fun e => e.1 == p) = none := by
    rw [List.find?_eq_none]
    intro x hx
    rcases List.mem_filterMap.mp hx with ⟨e, -, hmap⟩
    by_cases hu : isUnder src e.1 = true
    · rw [if_pos hu] at hmap
      cases hmap
      simp only [beq_iff_eq]
      intro hc
      rw [← hc] at h
      rw [isUnder_append] at h
      cases h
    · rw [if_neg hu] at hmap
      cases hmap
  rw [hnone]
  simp

theorem copytree_after_mkdir_lookup_dst (fs : FS) (d src dst rel : FPath) :
    (((if fs.dirExists d then fs else fs.mkdir d)).copytree src dst).lookup
        (dst ++ rel) =
      match fs.lookup (src ++ rel) with
      | some c => some c
      | none => fs.lookup (dst ++ rel) := by
  have hf : ((if fs.dirExists d then fs else fs.mkdir d)).files = fs.files := by
    split <;> rfl
  show lookupF (copyFiles src dst
    ((if fs.dirExists d then fs else fs.mkdir d)).files) (dst ++ rel) = _
  rw [hf, lookupF_copyFiles_dst]
  rfl

theorem copytree_after_mkdir_lookup_outside (fs : FS) (d src dst p : FPath)
    (h : isUnder dst p = false) :
    (((if fs.dirExists d then fs else fs.mkdir d)).copytree src dst).lookup p =
      fs.lookup p := by
  have hf : ((if fs.dirExists d then fs else fs.mkdir d)).files = fs.files := by
    split <;> rfl
  show lookupF (copyFiles src dst
    ((if fs.dirExists d then fs else fs.mkdir d)).files) p = _
  rw [hf, lookupF_copyFiles_outside _ _ _ _ h]
  rfl

/-! ### Claim theorems -/

/-- C1: the claim states that for two or more authors
`render_authors_string` returns the comma-join of all names but the last
followed by `"and "` plus the last name, so that `["Ann","Bo","Cy"]`
renders as `"Ann, Bo, and Cy"`.  The code's multi-author branch is guarded
by `len(author_list) < 1`, which never holds there, so the function falls
off the end and returns `None` instead: this theorem evaluates the code at
the failing input. -/
theorem C1_three_authors_returns_none :
    render_authors_string ["Ann", "Bo", "Cy"] = Except.ok none := rfl

/-- C8: a call with an empty author list raises an error (`ValueError`,
the `NoAuthors` condition) rather than returning a string. -/
theorem C8_empty_authors_error :
    render_authors_string [] =
      Except.error (PyError.valueError "No authors provided") := rfl

/-- C2 (counterexample): the claim states that any two built-post records
with equal titles are identified as one element of a project's post set.
`postDupA` and `postDupB` have equal titles but differ in their directory;
both end up in the set for `projOne`, so equal titles are not identified. -/
theorem C2_counterexample_title_not_identity :
    postDupA.data.title = postDupB.data.title ∧ postDupA ≠ postDupB ∧
    proj_posts projOne [postDupA, postDupB] = [postDupA, postDupB] := by decide

/-- C2 (amended): in the set of posts associated with a project,
deduplication uses the full built-post record as the identity key (the
`NamedTuple` `__eq__`, which the title-only `__hash__` override does not
replace): the computed set never holds two structurally equal records, and
two records that agree only on `title` remain distinct elements. -/
theorem C2_dedup_by_full_record :
    (∀ (project : ProjectData) (posts : List PostBuildData),
      (proj_posts project posts).Nodup) ∧
    postDupA ∈ proj_posts projOne [postDupA, postDupB] ∧
    postDupB ∈ proj_posts projOne [postDupA, postDupB] :=
  ⟨fun project posts => nodup_proj_posts_foldl project posts [] List.nodup_nil,
   by decide, by decide⟩

/-- C4: a built post appears in a project's associated-post set if and
only if the project's identifier (its `name`) is a member of the post's
`projects` field; a post whose `projects` field is absent (`None`) or
empty belongs to no project, and no post legitimately belonging to a
project is excluded from its set. -/
theorem C4_post_project_association (project : ProjectData)
    (posts : List PostBuildData) (p : PostBuildData) :
    (p ∈ proj_posts project posts ↔
      p ∈ posts ∧ ∃ l, p.data.project = some l ∧ project.name ∈ l) ∧
    (p.data.project = none ∨ p.data.project = some [] →
      p ∉ proj_posts project posts) := by
  have hmem := mem_proj_posts_foldl project posts [] p
  simp only [List.not_mem_nil, false_or] at hmem
  refine ⟨by simpa [proj_posts] using hmem, ?_⟩
  intro habs hin
  rw [proj_posts] at hin
  rcases hmem.mp hin with ⟨-, l, hl, hml⟩
  rcases habs with h | h
  · rw [h] at hl
    cases hl
  · rw [h] at hl
    cases hl
    cases hml

/-- Witness for C4 at concrete inputs. -/
theorem C4_witness :
    postDupA ∈ proj_posts projOne [postDupA, postDupB] ∧
    (mkPost "c" "NoProj" ⟨2024, 1, 1⟩ none []) ∉
      proj_posts projOne [mkPost "c" "NoProj" ⟨2024, 1, 1⟩ none []] :=
  ⟨(C4_post_project_association projOne [postDupA, postDupB] postDupA).1.mpr
      ⟨by decide, ["proj1"], by decide, by decide⟩,
   (C4_post_project_association projOne [mkPost "c" "NoProj" ⟨2024, 1, 1⟩ none []]
      (mkPost "c" "NoProj" ⟨2024, 1, 1⟩ none [])).2 (Or.inl (by decide))⟩

/-- C3: the claim states that each composed project page's header is
rendered with a page title parameterized by that project's name, so that
distinctly named projects get distinct header titles containing their
names.  The source passes `f"project.name - Alia Lescoulie"` — an
f-string with no replacement field — so the header title is the same
literal for every project: `projAlphaNamed` and `projBetaNamed` have
distinct names but identical header titles, and composing the Alpha
project page with header-echoing collaborators yields that literal. -/
theorem C3_project_header_title_constant :
    projAlphaNamed.name ≠ projBetaNamed.name ∧
    project_page_header_title projAlphaNamed =
      project_page_header_title projBetaNamed ∧
    project_page_header_title projAlphaNamed = "project.name - Alia Lescoulie" ∧
    build_project_page_html echoCollab projAlphaNamed [] ["projects"] ["posts"]
        fsAlpha =
      Except.ok ⟨projAlphaNamed, "project.name - Alia Lescoulie"⟩ := by
  refine ⟨by decide, rfl, rfl, ?_⟩
  simp only [build_project_page_html, build_post_blocks, pySorted, proj_posts,
    echoCollab, FS.lookup, lookupF, fsAlpha, projAlphaNamed,
    project_page_header_title, List.foldl_nil, List.mergeSort_nil]
  rfl

/-- C6: tag-page construction partitions the posts by tag membership: a
post appears in the post list of a tag exactly when it carries that tag
(so a post with `N` tags appears in exactly those `N` tag lists), one page
is planned per distinct tag occurring in the posts (no tag twice, no page
for an unused tag), and each page carries the title `"<tag> Blog Posts"`
and the output file name `<tag>.html`. -/
theorem C6_tag_pages_partition (posts : List PostBuildData) :
    ((tag_pages_plan posts).map TagPage.tag).Nodup ∧
    (∀ t, (∃ e ∈ tag_pages_plan posts, e.tag = t) ↔
      ∃ p ∈ posts, t ∈ p.data.tags) ∧
    (∀ e ∈ tag_pages_plan posts,
      e.title = e.tag ++ " Blog Posts" ∧ e.path = [e.tag ++ ".html"] ∧
      ∀ p, p ∈ e.posts ↔ p ∈ posts ∧ e.tag ∈ p.data.tags) := by
  have hmap : (tag_pages_plan posts).map TagPage.tag = distinct_tags posts := by
    simp [tag_pages_plan, List.map_map, Function.comp_def, List.map_id']
  refine ⟨hmap ▸ List.nodup_dedup _, ?_, ?_⟩
  · intro t
    rw [← mem_distinct_tags]
    constructor
    · rintro ⟨e, he, rfl⟩
      rcases List.mem_map.mp (by rw [tag_pages_plan] at he; exact he) with ⟨a, ha, rfl⟩
      exact ha
    · intro ht
      exact ⟨⟨t, t ++ " Blog Posts", [t ++ ".html"], tag_posts t posts⟩,
        List.mem_map.mpr ⟨t, ht, rfl⟩, rfl⟩
  · intro e he
    rcases List.mem_map.mp (by rw [tag_pages_plan] at he; exact he) with ⟨a, _, rfl⟩
    exact ⟨rfl, rfl, fun p => mem_tag_posts a posts p⟩

/-- A sample built post tagged `"rust"` and `"webdev"`. -/
def postRW : PostBuildData :=
  mkPost "r" "Rust post" ⟨2024, 3, 3⟩ none ["rust", "webdev"]

/-- Witness for C6 at concrete inputs. -/
theorem C6_witness :
    (∃ e ∈ tag_pages_plan [postRW], e.tag = "rust") ∧
    (postRW ∈ tag_posts "rust" [postRW] ∧ postRW ∈ tag_posts "webdev" [postRW]) ∧
    ¬(∃ e ∈ tag_pages_plan [postRW], e.tag = "other") :=
  ⟨(C6_tag_pages_partition [postRW]).2.1 "rust" |>.mpr
      ⟨postRW, by decide, by decide⟩,
   ⟨(mem_tag_posts "rust" [postRW] postRW).mpr ⟨by decide, by decide⟩,
    ((C6_tag_pages_partition [postRW]).2.2
        ⟨"webdev", "webdev Blog Posts", ["webdev.html"], tag_posts "webdev" [postRW]⟩
        (by decide)).2.2 postRW |>.mpr ⟨by decide, by decide⟩⟩,
   fun h => by
    have := (C6_tag_pages_partition [postRW]).2.1 "other" |>.mp h
    revert this
    decide⟩

/-- A sample built post dated 2024-01-01. -/
def postJan : PostBuildData := mkPost "jan" "January post" ⟨2024, 1, 1⟩ none []

/-- A sample built post dated 2024-06-01. -/
def postJun : PostBuildData := mkPost "jun" "June post" ⟨2024, 6, 1⟩ none []

/-- C5: listing construction sorts by date with a stable sort — the sorted
list is a permutation of the input, `reverse=True` (the blog-listing
default baked into `build_post_blocks`/`build_blog_page`) yields a
descending order and `reverse=False` (passed by
`build_project_page_html`) an ascending one, and any pair already
agreeing with the sort order (ties included) keeps its relative order.
Concretely, posts dated 2024-01-01 and 2024-06-01 sort June-first for the
blog listing, and `build_blog_page` writes a `blog.html` listing the June
post's block before the January post's block. -/
theorem C5_listing_sort_order :
    (∀ (key : PostBuildData → Date) (reverse : Bool) (posts : List PostBuildData),
      (pySorted key reverse posts).Perm posts) ∧
    (∀ posts : List PostBuildData, (pySorted date_sort true posts).Pairwise
      (fun a b => Date.le (date_sort b) (date_sort a) = true)) ∧
    (∀ posts : List PostBuildData, (pySorted date_sort false posts).Pairwise
      (fun a b => Date.le (date_sort a) (date_sort b) = true)) ∧
    (∀ (a b : PostBuildData) (posts : List PostBuildData),
      Date.le (date_sort b) (date_sort a) = true → [a, b].Sublist posts →
      [a, b].Sublist (pySorted date_sort true posts)) ∧
    (∀ (a b : PostBuildData) (posts : List PostBuildData),
      Date.le (date_sort a) (date_sort b) = true → [a, b].Sublist posts →
      [a, b].Sublist (pySorted date_sort false posts)) ∧
    pySorted date_sort true [postJan, postJun] = [postJun, postJan] ∧
    build_blog_page echoCollab [postJan, postJun] [] [] (pyPath "blog.html")
        "Blog" ⟨[], []⟩ =
      Except.ok (FS.write ⟨[], []⟩ ["blog.html"] "June post\nJanuary post") := by
  have hconc : pySorted date_sort true [postJan, postJun] = [postJun, postJan] := by
    rw [pySorted_true_eq]
    simp [List.mergeSort, descLe, date_sort, Date.le, postJan, postJun, mkPost,
      mkPostData]
  refine ⟨?_, ?_, ?_, ?_, ?_, hconc, ?_⟩
  · intro key reverse posts
    exact List.mergeSort_perm posts _
  · intro posts
    rw [pySorted_true_eq]
    exact List.sorted_mergeSort descLe_trans descLe_total posts
  · intro posts
    rw [pySorted_false_eq]
    exact List.sorted_mergeSort ascLe_trans ascLe_total posts
  · intro a b posts hab hsub
    rw [pySorted_true_eq]
    exact List.pair_sublist_mergeSort descLe_trans descLe_total hab hsub
  · intro a b posts hab hsub
    rw [pySorted_false_eq]
    exact List.pair_sublist_mergeSort ascLe_trans ascLe_total hab hsub
  · simp only [build_blog_page, build_post_blocks]
    rw [hconc]
    rfl

/-- Witness for C5 at concrete inputs: the stability part applied to the
already-descending two-post list. -/
theorem C5_witness :
    [postJun, postJan].Sublist (pySorted date_sort true [postJun, postJan]) :=
  C5_listing_sort_order.2.2.2.1 postJun postJan [postJun, postJan]
    (by decide) (List.Sublist.refl _)

/-- C7: asset staging.  For a content item (post or project) whose static
assets field is absent, staging returns the filesystem unchanged — a
no-op, not an error, creating no `static/` subdirectory.  For one whose
static directory is present, every file of the source asset subtree
reappears rebased under
`<site_build_dir>/<kind_build_dir>/<directory>/static` (overwriting any
previous file at the same destination path), paths outside that
destination are untouched, and destination files not hit by a copied file
survive (merge). -/
theorem C7_asset_staging (post : PostBuildData) (project : ProjectBuildData)
    (site_build_dir post_src_dir post_build_dir
      projects_src_dir projects_build_dir : FPath) (fs : FS) :
    (post.data.static = none →
      copy_post_files post site_build_dir post_src_dir post_build_dir fs = fs) ∧
    (project.data.static = none →
      copy_project_files project site_build_dir projects_src_dir
        projects_build_dir fs = fs) ∧
    (∀ s, post.data.static = some s →
      (∀ rel c,
        fs.lookup (post_src_dir ++ post.data.directory ++ s ++ rel) = some c →
        (copy_post_files post site_build_dir post_src_dir post_build_dir
          fs).lookup (site_build_dir ++ post_build_dir ++ post.data.directory
            ++ ["static"] ++ rel) = some c) ∧
      (∀ p, isUnder (site_build_dir ++ post_build_dir ++ post.data.directory
            ++ ["static"]) p = false →
        (copy_post_files post site_build_dir post_src_dir post_build_dir
          fs).lookup p = fs.lookup p) ∧
      (∀ rel,
        fs.lookup (post_src_dir ++ post.data.directory ++ s ++ rel) = none →
        (copy_post_files post site_build_dir post_src_dir post_build_dir
          fs).lookup (site_build_dir ++ post_build_dir ++ post.data.directory
            ++ ["static"] ++ rel) =
        fs.lookup (site_build_dir ++ post_build_dir ++ post.data.directory
          ++ ["static"] ++ rel))) ∧
    (∀ s, project.data.static = some s →
      (∀ rel c,
        fs.lookup (projects_src_dir ++ project.data.directory ++ s ++ rel) =
          some c →
        (copy_project_files project site_build_dir projects_src_dir
          projects_build_dir fs).lookup (site_build_dir ++ projects_build_dir
            ++ project.data.directory ++ ["static"] ++ rel) = some c) ∧
      (∀ p, isUnder (site_build_dir ++ projects_build_dir
            ++ project.data.directory ++ ["static"]) p = false →
        (copy_project_files project site_build_dir projects_src_dir
          projects_build_dir fs).lookup p = fs.lookup p) ∧
      (∀ rel,
        fs.lookup (projects_src_dir ++ project.data.directory ++ s ++ rel) =
          none →
        (copy_project_files project site_build_dir projects_src_dir
          projects_build_dir fs).lookup (site_build_dir ++ projects_build_dir
            ++ project.data.directory ++ ["static"] ++ rel) =
        fs.lookup (site_build_dir ++ projects_build_dir
          ++ project.data.directory ++ ["static"] ++ rel))) := by
  refine ⟨?_, ?_, ?_, ?_⟩
  · intro h
    simp [copy_post_files, h]
  · intro h
    simp [copy_project_files, h]
  · intro s hs
    have hunfold : copy_post_files post site_build_dir post_src_dir
        post_build_dir fs =
        ((if fs.dirExists (site_build_dir ++ post_build_dir
            ++ post.data.directory ++ ["static"]) then fs
          else fs.mkdir (site_build_dir ++ post_build_dir
            ++ post.data.directory ++ ["static"]))).copytree
          (post_src_dir ++ post.data.directory ++ s)
          (site_build_dir ++ post_build_dir ++ post.data.directory
            ++ ["static"]) := by
      simp [copy_post_files, hs]
    refine ⟨?_, ?_, ?_⟩
    · intro rel c hc
      rw [hunfold, copytree_after_mkdir_lookup_dst, hc]
    · intro p hp
      rw [hunfold, copytree_after_mkdir_lookup_outside _ _ _ _ _ hp]
    · intro rel hc
      rw [hunfold, copytree_after_mkdir_lookup_dst, hc]
  · intro s hs
    have hunfold : copy_project_files project site_build_dir projects_src_dir
        projects_build_dir fs =
        ((if fs.dirExists (site_build_dir ++ projects_build_dir
            ++ project.data.directory ++ ["static"]) then fs
          else fs.mkdir (site_build_dir ++ projects_build_dir
            ++ project.data.directory ++ ["static"]))).copytree
          (projects_src_dir ++ project.data.directory ++ s)
          (site_build_dir ++ projects_build_dir ++ project.data.directory
            ++ ["static"]) := by
      simp [copy_project_files, hs]
    refine ⟨?_, ?_, ?_⟩
    · intro rel c hc
      rw [hunfold, copytree_after_mkdir_lookup_dst, hc]
    · intro p hp
      rw [hunfold, copytree_after_mkdir_lookup_outside _ _ _ _ _ hp]
    · intro rel hc
      rw [hunfold, copytree_after_mkdir_lookup_dst, hc]

/-- A sample built post without a static assets directory. -/
def postNoAssets : PostBuildData := mkPost "n" "No assets" ⟨2024, 1, 1⟩ none []

/-- A sample built post with a static assets directory. -/
def postWithAssets : PostBuildData :=
  { path := ["site_out", "posts", "w", "post.html"]
    directory := ["site_out", "posts", "w"]
    data := { mkPostData "w" "With assets" ⟨2024, 1, 1⟩ none [] with
      static := some ["static"] } }

/-- A sample built project (with a static assets directory). -/
def projBuildSample : ProjectBuildData :=
  ⟨["site_out", "projects", "alpha", "index.html"],
   ["site_out", "projects", "alpha"], projAlphaNamed⟩

/-- A filesystem holding one asset file for `postWithAssets` and one for
`projBuildSample`. -/
def fsAssets : FS :=
  ⟨[(["blog_posts", "w", "static", "img.png"], "img"),
    (["projects_src", "alpha", "static", "logo.png"], "logo")], []⟩

/-- Witness for C7 at concrete inputs. -/
theorem C7_witness :
    copy_post_files postNoAssets ["site_out"] ["blog_posts"] ["posts"]
      fsAssets = fsAssets ∧
    (copy_post_files postWithAssets ["site_out"] ["blog_posts"] ["posts"]
      fsAssets).lookup (["site_out"] ++ ["posts"]
        ++ postWithAssets.data.directory ++ ["static"] ++ ["img.png"]) =
      some "img" ∧
    (copy_project_files projBuildSample ["site_out"] ["projects_src"]
      ["projects"] fsAssets).lookup (["site_out"] ++ ["projects"]
        ++ projBuildSample.data.directory ++ ["static"] ++ ["logo.png"]) =
      some "logo" :=
  ⟨(C7_asset_staging postNoAssets projBuildSample ["site_out"] ["blog_posts"]
      ["posts"] ["projects_src"] ["projects"] fsAssets).1 rfl,
   ((C7_asset_staging postWithAssets projBuildSample ["site_out"]
      ["blog_posts"] ["posts"] ["projects_src"] ["projects"] fsAssets).2.2.1
      ["static"] rfl).1 ["img.png"] "img" rfl,
   ((C7_asset_staging postWithAssets projBuildSample ["site_out"]
      ["blog_posts"] ["posts"] ["projects_src"] ["projects"] fsAssets).2.2.2
      ["static"] rfl).1 ["logo.png"] "logo" rfl⟩

/-- C10: when no post descriptors are found, `build_blog` returns the
empty list immediately and the filesystem is unchanged: no post pages, no
blog listing page and no tag pages are written. -/
theorem C10_build_blog_empty (C : Collaborators)
    (post_src_dir site_build_dir post_build_dir : FPath) (fs : FS) :
    build_blog C [] post_src_dir site_build_dir post_build_dir fs =
      Except.ok ([], fs) := rfl

/-- C9: parsing a project descriptor whose `static_dir` field is null
fails with an error (`TypeError`, from evaluating `Path(None)`, which
happens before the `datetime.date` constructor runs) rather than
producing a `ProjectData` with no assets directory; consequently every
`ProjectData` returned by `parse_proj` has a present static path, so the
`None` branch of `copy_project_files` is unreachable for parsed
projects. -/
theorem C9_parse_proj_static_null (j : ProjJson) :
    (j.static_dir = none →
      parse_proj j = Except.error (PyError.typeError
        "argument should be a str or an os.PathLike object, not NoneType")) ∧
    (∀ pd, parse_proj j = Except.ok pd → ∃ s, pd.static = some s) := by
  constructor
  · intro h
    simp only [parse_proj, h]
    rfl
  · intro pd hpd
    cases hs : j.static_dir with
    | none =>
      rw [parse_proj] at hpd
      simp only [hs] at hpd
      cases hpd
    | some s =>
      rw [parse_proj] at hpd
      simp only [hs] at hpd
      cases hd : mkDate j.day j.month j.year with
      | error e =>
        rw [hd] at hpd
        cases hpd
      | ok d =>
        rw [hd] at hpd
        cases hpd
        exact ⟨pyPath s, rfl⟩

/-- A project descriptor whose `static_dir` is null. -/
def projJsonNull : ProjJson :=
  { file_path := "index.md", proj_dir := "alpha", format := "markdown"
    static_dir := none, thumbnail := "t.png", project := "Alpha"
    day := 1, month := 1, year := 2024, description := "d" }

/-- The same project descriptor with `static_dir` present. -/
def projJsonGood : ProjJson := { projJsonNull with static_dir := some "static" }

/-- The record parsed from `projJsonGood`. -/
def pdGood : ProjectData :=
  { path := ["index.md"], directory := ["alpha"], format := "markdown"
    static := some ["static"], thumbnail := ["t.png"], name := "Alpha"
    date := ⟨2024, 1, 1⟩, description := "d" }

/-- Witness for C9 at concrete inputs. -/
theorem C9_witness :
    parse_proj projJsonNull = Except.error (PyError.typeError
      "argument should be a str or an os.PathLike object, not NoneType") ∧
    ∃ s, pdGood.static = some s :=
  ⟨(C9_parse_proj_static_null projJsonNull).1 rfl,
   (C9_parse_proj_static_null projJsonGood).2 pdGood rfl⟩

end Sitegen
